import Mathlib

/-!
Shallow embedding of the cryptopen verification-harness core (Python testbench
models) and proofs about it: the SHA-1 / SHA-256 / SHA-512 software models
(`tb/model/sha1.py`, `tb/sha256/model/sha256.py`, `tb/sha2/model/sha512.py`),
the strobe-write reference model (`tb/interface/test_regs.py`,
`tb/interface/test_simple_interface.py`) and the register-address map and
block driver (`tb/driver.py`, `tb/interface/utils.py`).

Messages and byte strings are `List Nat` of byte values; Python unbounded
ints are `Nat` with explicit masking exactly where the source masks.
Python calls that can raise (`struct.pack` on an oversized value, the
`assert` on block length, the unsupported-digest-width assertion) are
embedded as `Option`.
-/

set_option maxRecDepth 4000

/-- Big-endian byte encoding of `n` on `k` bytes (the semantics of
`struct.pack` with a big-endian format on an in-range value). -/
def beBytes : Nat → Nat → List Nat
  | 0, _ => []
  | k + 1, n => beBytes k (n >>> 8) ++ [n &&& 0xFF]

/-- Big-endian byte decoding (the semantics of `struct.unpack` with a
big-endian format, and of `int.from_bytes(_, byteorder="big")`). -/
def beWord (bs : List Nat) : Nat := bs.foldl (fun a b => a * 256 + b) 0

/-- `struct.pack(">Q", n)`: 8 big-endian bytes, raising if `n ≥ 2^64`. -/
def pack64 (n : Nat) : Option (List Nat) :=
  if n < 2 ^ 64 then some (beBytes 8 n) else none

/-- The last `n` entries of a list. -/
def lastN (n : Nat) (l : List Nat) : List Nat := l.drop (l.length - n)

/-- Python `format(x, f"0{width}x")`: lowercase hex, zero-padded on the left
to at least `width` digits. -/
def hexPad (width x : Nat) : String :=
  let ds := Nat.toDigits 16 x
  String.mk (List.replicate (width - ds.length) '0' ++ ds)

/-- Python `range(0, stop, step)` as a list (for `step > 0`). -/
def pyRange (stop step : Nat) : List Nat :=
  (List.range ((stop + step - 1) / step)).map (· * step)

namespace sha1

/-- `left_rotate` from `tb/model/sha1.py`:
`((x << n) | (x >> (32 - n))) & 0xFFFFFFFF`. -/
def left_rotate (x n : Nat) : Nat := ((x <<< n) ||| (x >>> (32 - n))) &&& 0xFFFFFFFF

/-- `maj` from `tb/model/sha1.py`. -/
def maj (x y z : Nat) : Nat := (x &&& y) ^^^ (x &&& z) ^^^ (y &&& z)

/-- `ch` from `tb/model/sha1.py`: `(x & y) ^ (~x & z)`.  Python's `~x` is the
two's-complement NOT of an unbounded int; all call sites pass 32-bit words,
for which `~x & z = (x ^ 0xFFFFFFFF) & z`. -/
def ch (x y z : Nat) : Nat := (x &&& y) ^^^ ((x ^^^ 0xFFFFFFFF) &&& z)

/-- `parity` from `tb/model/sha1.py`. -/
def parity (x y z : Nat) : Nat := x ^^^ y ^^^ z

/-- The five-word hash state `self._h`. -/
abbrev State := Nat × Nat × Nat × Nat × Nat

/-- The SHA-1 initialization vector from `sha1.__init__`. -/
def init_h : State := (0x67452301, 0xEFCDAB89, 0x98BADCFE, 0x10325476, 0xC3D2E1F0)

/-- The zero-padding loop of `sha1._pre_processing`:
`while (len(m) + 8) % 64 != 0: m.append(0x00)`.  Written with the zero count
in closed form so that it computes by kernel reduction; `padZeros_loop` below
proves it satisfies exactly the loop's recurrence. -/
def padZeros (m : List Nat) : List Nat :=
  m ++ List.replicate ((64 - (m.length + 8) % 64) % 64) 0

/-- `sha1._pre_processing`: append `0x80`, zero-pad, then append the bit
length as a big-endian 64-bit integer (`struct.pack(">Q", ml)`). -/
def pre_processing (msg : List Nat) : Option (List Nat) := do
  let ml := msg.length * 8
  let lenBytes ← pack64 ml
  return padZeros (msg ++ [0x80]) ++ lenBytes

/-- One extension step of the message-schedule loop
`w.append(left_rotate(w[i-3] ^ w[i-8] ^ w[i-14] ^ w[i-16], 1))`, taken at the
point where `w` has length `i`. -/
def scheduleStep (w : List Nat) : List Nat :=
  w ++ [left_rotate (w.getD (w.length - 3) 0 ^^^ w.getD (w.length - 8) 0 ^^^
    w.getD (w.length - 14) 0 ^^^ w.getD (w.length - 16) 0) 1]

/-- The message schedule of `sha1._process_block`: 16 words unpacked
big-endian from the block, extended to 80 words. -/
def schedule (block : List Nat) : List Nat :=
  let w16 := (List.range 16).map (fun i => beWord ((block.drop (4 * i)).take 4))
  (List.range 64).foldl (fun w _ => scheduleStep w) w16

/-- One round of the 80-round loop of `sha1._process_block`. -/
def round_step (w : List Nat) (st : State) (i : Nat) : State :=
  let (a, b, c, d, e) := st
  let f := if i < 20 then ch b c d
    else if i < 40 then parity b c d
    else if i < 60 then maj b c d
    else parity b c d
  let k := if i < 20 then 0x5A827999
    else if i < 40 then 0x6ED9EBA1
    else if i < 60 then 0x8F1BBCDC
    else 0xCA62C1D6
  ((left_rotate a 5 + f + e + k + w.getD i 0) &&& 0xFFFFFFFF, a, left_rotate b 30, c, d)

/-- `sha1._process_block`: asserts the block is 64 bytes, runs the 80 rounds
and adds the result into the hash state modulo `2^32`. -/
def process_block (st : State) (block : List Nat) : Option State :=
  if block.length = 64 then
    let w := schedule block
    let (a, b, c, d, e) := (List.range 80).foldl (round_step w) st
    some ((st.1 + a) &&& 0xFFFFFFFF, (st.2.1 + b) &&& 0xFFFFFFFF,
      (st.2.2.1 + c) &&& 0xFFFFFFFF, (st.2.2.2.1 + d) &&& 0xFFFFFFFF,
      (st.2.2.2.2 + e) &&& 0xFFFFFFFF)
  else none

/-- `sha1.digest`: the five state words as 8-digit lowercase hex. -/
def digest (st : State) : String :=
  String.join ([st.1, st.2.1, st.2.2.1, st.2.2.2.1, st.2.2.2.2].map (hexPad 8))

/-- The block loop of `sha1.process`, threading the mutable hash state. -/
def processBlocksLoop : State → List (List Nat) → Option State
  | st, [] => some st
  | st, b :: bs => do processBlocksLoop (← process_block st b) bs

/-- `sha1.process`: pad, split into 64-byte blocks, compress each block in
order, and return the final state together with `self.digest()`. -/
def process (st : State) (msg : List Nat) : Option (State × String) := do
  let pre ← pre_processing msg
  let blocks := (pyRange pre.length 64).map (fun m => (pre.drop m).take 64)
  let st' ← processBlocksLoop st blocks
  return (st', digest st')

end sha1

namespace sha256

/-- `right_rotate` from `tb/sha256/model/sha256.py`:
`(x >> n) | (x << (32 - n))` — note: no masking. -/
def right_rotate (x n : Nat) : Nat := (x >>> n) ||| (x <<< (32 - n))

/-- The round-constant table `sha256.k`. -/
def k : List Nat := [
  0x428A2F98, 0x71374491, 0xB5C0FBCF, 0xE9B5DBA5, 0x3956C25B, 0x59F111F1,
  0x923F82A4, 0xAB1C5ED5, 0xD807AA98, 0x12835B01, 0x243185BE, 0x550C7DC3,
  0x72BE5D74, 0x80DEB1FE, 0x9BDC06A7, 0xC19BF174, 0xE49B69C1, 0xEFBE4786,
  0x0FC19DC6, 0x240CA1CC, 0x2DE92C6F, 0x4A7484AA, 0x5CB0A9DC, 0x76F988DA,
  0x983E5152, 0xA831C66D, 0xB00327C8, 0xBF597FC7, 0xC6E00BF3, 0xD5A79147,
  0x06CA6351, 0x14292967, 0x27B70A85, 0x2E1B2138, 0x4D2C6DFC, 0x53380D13,
  0x650A7354, 0x766A0ABB, 0x81C2C92E, 0x92722C85, 0xA2BFE8A1, 0xA81A664B,
  0xC24B8B70, 0xC76C51A3, 0xD192E819, 0xD6990624, 0xF40E3585, 0x106AA070,
  0x19A4C116, 0x1E376C08, 0x2748774C, 0x34B0BCB5, 0x391C0CB3, 0x4ED8AA4A,
  0x5B9CCA4F, 0x682E6FF3, 0x748F82EE, 0x78A5636F, 0x84C87814, 0x8CC70208,
  0x90BEFFFA, 0xA4506CEB, 0xBEF9A3F7, 0xC67178F2]

/-- The eight-word hash state `self._h`. -/
abbrev State := Nat × Nat × Nat × Nat × Nat × Nat × Nat × Nat

/-- The SHA-256 initialization vector from `sha256.__init__`. -/
def init_h : State :=
  (0x6A09E667, 0xBB67AE85, 0x3C6EF372, 0xA54FF53A,
   0x510E527F, 0x9B05688C, 0x1F83D9AB, 0x5BE0CD19)

/-- The zero-padding loop of `sha256._pre_processing` (same as SHA-1). -/
def padZeros (m : List Nat) : List Nat :=
  m ++ List.replicate ((64 - (m.length + 8) % 64) % 64) 0

/-- `sha256._pre_processing`. -/
def pre_processing (msg : List Nat) : Option (List Nat) := do
  let ml := msg.length * 8
  let lenBytes ← pack64 ml
  return padZeros (msg ++ [0x80]) ++ lenBytes

/-- One extension step of the schedule loop of `sha256._process_block`,
taken at the point where `w` has length `i`:
`s0 = rr(w[i-15],7) ^ rr(w[i-15],18) ^ (w[i-15] >> 3)`,
`s1 = rr(w[i-2],17) ^ rr(w[i-2],19) ^ (w[i-2] >> 10)`,
`w[i] = (w[i-16] + s0 + w[i-7] + s1) & 0xFFFFFFFF`. -/
def scheduleStep (w : List Nat) : List Nat :=
  let x15 := w.getD (w.length - 15) 0
  let x2 := w.getD (w.length - 2) 0
  let s0 := right_rotate x15 7 ^^^ right_rotate x15 18 ^^^ (x15 >>> 3)
  let s1 := right_rotate x2 17 ^^^ right_rotate x2 19 ^^^ (x2 >>> 10)
  w ++ [(w.getD (w.length - 16) 0 + s0 + w.getD (w.length - 7) 0 + s1) &&& 0xFFFFFFFF]

/-- The 64-word message schedule of `sha256._process_block`. -/
def schedule (block : List Nat) : List Nat :=
  let w16 := (List.range 16).map (fun i => beWord ((block.drop (4 * i)).take 4))
  (List.range 48).foldl (fun w _ => scheduleStep w) w16

/-- One round of the 64-round loop of `sha256._process_block`.  Python's
`~e & g` on 32-bit words is `(e ^ 0xFFFFFFFF) & g`. -/
def round_step (w : List Nat) (st : State) (i : Nat) : State :=
  let (a, b, c, d, e, f, g, h) := st
  let s1 := right_rotate e 6 ^^^ right_rotate e 11 ^^^ right_rotate e 25
  let ch := (e &&& f) ^^^ ((e ^^^ 0xFFFFFFFF) &&& g)
  let temp1 := (h + s1 + ch + k.getD i 0 + w.getD i 0) &&& 0xFFFFFFFF
  let s0 := right_rotate a 2 ^^^ right_rotate a 13 ^^^ right_rotate a 22
  let maj := (a &&& b) ^^^ (a &&& c) ^^^ (b &&& c)
  let temp2 := (s0 + maj) &&& 0xFFFFFFFF
  ((temp1 + temp2) &&& 0xFFFFFFFF, a, b, c, (d + temp1) &&& 0xFFFFFFFF, e, f, g)

/-- `sha256._process_block`. -/
def process_block (st : State) (block : List Nat) : Option State :=
  if block.length = 64 then
    let w := schedule block
    let (a, b, c, d, e, f, g, h) := (List.range 64).foldl (round_step w) st
    some ((st.1 + a) &&& 0xFFFFFFFF, (st.2.1 + b) &&& 0xFFFFFFFF,
      (st.2.2.1 + c) &&& 0xFFFFFFFF, (st.2.2.2.1 + d) &&& 0xFFFFFFFF,
      (st.2.2.2.2.1 + e) &&& 0xFFFFFFFF, (st.2.2.2.2.2.1 + f) &&& 0xFFFFFFFF,
      (st.2.2.2.2.2.2.1 + g) &&& 0xFFFFFFFF, (st.2.2.2.2.2.2.2 + h) &&& 0xFFFFFFFF)
  else none

/-- `sha256.digest`: the eight state words as 8-digit lowercase hex. -/
def digest (st : State) : String :=
  String.join ([st.1, st.2.1, st.2.2.1, st.2.2.2.1, st.2.2.2.2.1,
    st.2.2.2.2.2.1, st.2.2.2.2.2.2.1, st.2.2.2.2.2.2.2].map (hexPad 8))

/-- The block loop of `sha256.process`. -/
def processBlocksLoop : State → List (List Nat) → Option State
  | st, [] => some st
  | st, b :: bs => do processBlocksLoop (← process_block st b) bs

/-- `sha256.process`. -/
def process (st : State) (msg : List Nat) : Option (State × String) := do
  let pre ← pre_processing msg
  let blocks := (pyRange pre.length 64).map (fun m => (pre.drop m).take 64)
  let st' ← processBlocksLoop st blocks
  return (st', digest st')

end sha256

namespace sha512

/-- `right_rotate` from `tb/sha2/model/sha512.py`:
`(x >> n) | (x << (64 - n))` — note: no masking. -/
def right_rotate (x n : Nat) : Nat := (x >>> n) ||| (x <<< (64 - n))

/-- The round-constant table `sha512.k`. -/
def k : List Nat := [
  0x428A2F98D728AE22, 0x7137449123EF65CD, 0xB5C0FBCFEC4D3B2F, 0xE9B5DBA58189DBBC,
  0x3956C25BF348B538, 0x59F111F1B605D019, 0x923F82A4AF194F9B, 0xAB1C5ED5DA6D8118,
  0xD807AA98A3030242, 0x12835B0145706FBE, 0x243185BE4EE4B28C, 0x550C7DC3D5FFB4E2,
  0x72BE5D74F27B896F, 0x80DEB1FE3B1696B1, 0x9BDC06A725C71235, 0xC19BF174CF692694,
  0xE49B69C19EF14AD2, 0xEFBE4786384F25E3, 0x0FC19DC68B8CD5B5, 0x240CA1CC77AC9C65,
  0x2DE92C6F592B0275, 0x4A7484AA6EA6E483, 0x5CB0A9DCBD41FBD4, 0x76F988DA831153B5,
  0x983E5152EE66DFAB, 0xA831C66D2DB43210, 0xB00327C898FB213F, 0xBF597FC7BEEF0EE4,
  0xC6E00BF33DA88FC2, 0xD5A79147930AA725, 0x06CA6351E003826F, 0x142929670A0E6E70,
  0x27B70A8546D22FFC, 0x2E1B21385C26C926, 0x4D2C6DFC5AC42AED, 0x53380D139D95B3DF,
  0x650A73548BAF63DE, 0x766A0ABB3C77B2A8, 0x81C2C92E47EDAEE6, 0x92722C851482353B,
  0xA2BFE8A14CF10364, 0xA81A664BBC423001, 0xC24B8B70D0F89791, 0xC76C51A30654BE30,
  0xD192E819D6EF5218, 0xD69906245565A910, 0xF40E35855771202A, 0x106AA07032BBD1B8,
  0x19A4C116B8D2D0C8, 0x1E376C085141AB53, 0x2748774CDF8EEB99, 0x34B0BCB5E19B48A8,
  0x391C0CB3C5C95A63, 0x4ED8AA4AE3418ACB, 0x5B9CCA4F7763E373, 0x682E6FF3D6B2B8A3,
  0x748F82EE5DEFB2FC, 0x78A5636F43172F60, 0x84C87814A1F0AB72, 0x8CC702081A6439EC,
  0x90BEFFFA23631E28, 0xA4506CEBDE82BDE9, 0xBEF9A3F7B2C67915, 0xC67178F2E372532B,
  0xCA273ECEEA26619C, 0xD186B8C721C0C207, 0xEADA7DD6CDE0EB1E, 0xF57D4F7FEE6ED178,
  0x06F067AA72176FBA, 0x0A637DC5A2C898A6, 0x113F9804BEF90DAE, 0x1B710B35131C471B,
  0x28DB77F523047D84, 0x32CAAB7B40C72493, 0x3C9EBE0A15C9BEBC, 0x431D67C49C100D4C,
  0x4CC5D4BECB3E42B6, 0x597F299CFC657E2A, 0x5FCB6FAB3AD6FAEC, 0x6C44198C4A475817]

/-- The eight-word hash state `self._h`. -/
abbrev State := Nat × Nat × Nat × Nat × Nat × Nat × Nat × Nat

/-- `sha512_h` from `sha512.__init__`. -/
def sha512_h : State :=
  (0x6A09E667F3BCC908, 0xBB67AE8584CAA73B, 0x3C6EF372FE94F82B, 0xA54FF53A5F1D36F1,
   0x510E527FADE682D1, 0x9B05688C2B3E6C1F, 0x1F83D9ABFB41BD6B, 0x5BE0CD19137E2179)

/-- `sha384_h` from `sha512.__init__`. -/
def sha384_h : State :=
  (0xCBBB9D5DC1059ED8, 0x629A292A367CD507, 0x9159015A3070DD17, 0x152FECD8F70E5939,
   0x67332667FFC00B31, 0x8EB44A8768581511, 0xDB0C2E0D64F98FA7, 0x47B5481DBEFA4FA4)

/-- `sha256_h` from `sha512.__init__` (SHA-512/256 IV). -/
def sha256_h : State :=
  (0x22312194FC2BF72C, 0x9F555FA3C84C64C2, 0x2393B86B6F53B151, 0x963877195940EABD,
   0x96283EE2A88EFFE3, 0xBE5E1E2553863992, 0x2B0199FC2C85B8AA, 0x0EB72DDC81C52CA2)

/-- `sha224_h` from `sha512.__init__` (SHA-512/224 IV). -/
def sha224_h : State :=
  (0x8C3D37C819544DA2, 0x73E1996689DCD4D6, 0x1DFAB7AE32FF9C82, 0x679DD514582F9FCF,
   0x0F6D2B697BD44DA8, 0x77E36F7304C48942, 0x3F9D85A86A1D36C8, 0x1112E6AD91D692A1)

/-- A constructed `sha512` instance: its hash state and the digest width
selected at construction. -/
structure Inst where
  h : State
  digest_width : Nat

/-- `sha512.__init__`: the assertion `digest_width in [224, 256, 384, 512]`
fails construction for any other width; otherwise the state is initialized
from the corresponding IV table. -/
def mk (digest_width : Nat) : Option Inst :=
  if digest_width = 512 then some ⟨sha512_h, digest_width⟩
  else if digest_width = 384 then some ⟨sha384_h, digest_width⟩
  else if digest_width = 256 then some ⟨sha256_h, digest_width⟩
  else if digest_width = 224 then some ⟨sha224_h, digest_width⟩
  else none

/-- The zero-padding loop of `sha512._pre_processing`:
`while (len(m) + 16) % 128 != 0: m.append(0x00)` (closed form; see
`padZeros_loop512`). -/
def padZeros (m : List Nat) : List Nat :=
  m ++ List.replicate ((128 - (m.length + 16) % 128) % 128) 0

/-- `sha512._pre_processing`.  The length field is
`struct.pack(">QQ", (ml & (0xFFFF_FFFF < 32)), ml & 0xFFFF_FFFF)` — note the
first word: Python evaluates `0xFFFF_FFFF < 32` as a boolean (`False`, i.e.
`0`), so the high quadword is `ml & 0 = 0`. -/
def pre_processing (msg : List Nat) : Option (List Nat) :=
  let ml := msg.length * 8
  (pack64 (ml &&& (if (0xFFFFFFFF : Nat) < 32 then 1 else 0))).bind fun hiQ =>
  (pack64 (ml &&& 0xFFFFFFFF)).bind fun loQ =>
  some (padZeros (msg ++ [0x80]) ++ hiQ ++ loQ)

/-- One extension step of the schedule loop of `sha512._process_block`,
taken at the point where `w` has length `i`. -/
def scheduleStep (w : List Nat) : List Nat :=
  let x15 := w.getD (w.length - 15) 0
  let x2 := w.getD (w.length - 2) 0
  let s0 := right_rotate x15 1 ^^^ right_rotate x15 8 ^^^ (x15 >>> 7)
  let s1 := right_rotate x2 19 ^^^ right_rotate x2 61 ^^^ (x2 >>> 6)
  w ++ [(w.getD (w.length - 16) 0 + s0 + w.getD (w.length - 7) 0 + s1) &&&
    0xFFFFFFFFFFFFFFFF]

/-- The 80-word message schedule of `sha512._process_block`. -/
def schedule (block : List Nat) : List Nat :=
  let w16 := (List.range 16).map (fun i => beWord ((block.drop (8 * i)).take 8))
  (List.range 64).foldl (fun w _ => scheduleStep w) w16

/-- One round of the 80-round loop of `sha512._process_block`.  Python's
`~e & g` on 64-bit words is `(e ^ 0xFFFFFFFFFFFFFFFF) & g`. -/
def round_step (w : List Nat) (st : State) (i : Nat) : State :=
  let (a, b, c, d, e, f, g, h) := st
  let s1 := right_rotate e 14 ^^^ right_rotate e 18 ^^^ right_rotate e 41
  let ch := (e &&& f) ^^^ ((e ^^^ 0xFFFFFFFFFFFFFFFF) &&& g)
  let temp1 := (h + s1 + ch + k.getD i 0 + w.getD i 0) &&& 0xFFFFFFFFFFFFFFFF
  let s0 := right_rotate a 28 ^^^ right_rotate a 34 ^^^ right_rotate a 39
  let maj := (a &&& b) ^^^ (a &&& c) ^^^ (b &&& c)
  let temp2 := (s0 + maj) &&& 0xFFFFFFFFFFFFFFFF
  ((temp1 + temp2) &&& 0xFFFFFFFFFFFFFFFF, a, b, c,
    (d + temp1) &&& 0xFFFFFFFFFFFFFFFF, e, f, g)

/-- `sha512._process_block`. -/
def process_block (st : State) (block : List Nat) : Option State :=
  if block.length = 128 then
    let w := schedule block
    let (a, b, c, d, e, f, g, h) := (List.range 80).foldl (round_step w) st
    some ((st.1 + a) &&& 0xFFFFFFFFFFFFFFFF, (st.2.1 + b) &&& 0xFFFFFFFFFFFFFFFF,
      (st.2.2.1 + c) &&& 0xFFFFFFFFFFFFFFFF, (st.2.2.2.1 + d) &&& 0xFFFFFFFFFFFFFFFF,
      (st.2.2.2.2.1 + e) &&& 0xFFFFFFFFFFFFFFFF,
      (st.2.2.2.2.2.1 + f) &&& 0xFFFFFFFFFFFFFFFF,
      (st.2.2.2.2.2.2.1 + g) &&& 0xFFFFFFFFFFFFFFFF,
      (st.2.2.2.2.2.2.2 + h) &&& 0xFFFFFFFFFFFFFFFF)
  else none

/-- `sha512.digest`: the eight state words as 16-digit lowercase hex,
truncated to `digest_width / 4` hex characters. -/
def digest (inst : Inst) : String :=
  let st := inst.h
  let full := String.join ([st.1, st.2.1, st.2.2.1, st.2.2.2.1, st.2.2.2.2.1,
    st.2.2.2.2.2.1, st.2.2.2.2.2.2.1, st.2.2.2.2.2.2.2].map (hexPad 16))
  full.take (inst.digest_width / 4)

/-- The block loop of `sha512.process`. -/
def processBlocksLoop : State → List (List Nat) → Option State
  | st, [] => some st
  | st, b :: bs => (process_block st b).bind fun st' => processBlocksLoop st' bs

/-- `sha512.process`: pad, split into 128-byte blocks, compress each block
in order, and return the updated instance together with `self.digest()`. -/
def process (inst : Inst) (msg : List Nat) : Option (Inst × String) :=
  (pre_processing msg).bind fun pre =>
  (processBlocksLoop inst.h
      ((pyRange pre.length 128).map (fun m => (pre.drop m).take 128))).bind fun st' =>
  some (⟨st', inst.digest_width⟩, digest ⟨st', inst.digest_width⟩)

end sha512

/-- The loop of `sim_strobe_write` from `tb/interface/test_regs.py` (the
same function appears in `tb/interface/test_simple_interface.py`), having
accumulated byte lanes `0 .. n-1`:
`for b in range(0, databytes): data = wrval if strobe & (1 << b) else prevval;
regval |= data & (0xFF << b * 8)`. -/
def simStrobeLoop (prevval wrval strobe : Nat) : Nat → Nat
  | 0 => 0
  | b + 1 => simStrobeLoop prevval wrval strobe b |||
      ((if strobe &&& (1 <<< b) ≠ 0 then wrval else prevval) &&& (0xFF <<< (b * 8)))

/-- `sim_strobe_write(prevval, wrval, strobe, databytes)`: the strobe-masked
register-write reference model. -/
def sim_strobe_write (prevval wrval strobe databytes : Nat) : Nat :=
  simStrobeLoop prevval wrval strobe databytes

/-- `CTRL_ADDR` from `tb/interface/utils.py`. -/
def CTRL_ADDR : Nat := 0x000

/-- `BLOCK_ADDR` from `tb/interface/utils.py`. -/
def BLOCK_ADDR : Nat := 0x100

/-- `DIGEST_ADDR` from `tb/interface/utils.py`. -/
def DIGEST_ADDR : Nat := 0x200

/-- `align(addr, step)` from `tb/interface/utils.py`: `int(addr / step)` —
floor division for non-negative ints, and a `ZeroDivisionError` when
`step == 0`. -/
def utils_align (addr step : Nat) : Option Nat :=
  if step = 0 then none else some (addr / step)

/-- `align(addr, bytealign)` from `tb/interface/test_regs.py` and
`tb/interface/test_simple_interface.py`:
`step = 8 if bytealign else 32; return int(addr / step)`. -/
def tbAlign (addr : Nat) (bytealign : Bool) : Nat :=
  addr / (if bytealign then 8 else 32)

/-- A register-region address list as the testbenches build it, e.g.
`[align(addr, BYTE_ALIGN) + DIGEST_ADDR for addr in range(0, DIGEST_WIDTH,
DATA_WIDTH)]`. -/
def tbRegionAddrs (base width data_width : Nat) (bytealign : Bool) : List Nat :=
  (pyRange width data_width).map (fun addr => tbAlign addr bytealign + base)

namespace Driver

/-- `Driver.__init__` (`tb/driver.py`): the block-region address list
`[align(addr, byte_align) + BLOCK_ADDR for addr in range(0, block_width,
data_width)]`, where `align` is the `(addr, step)` version imported from
`interface.utils` and `byte_align` is passed as its `step` argument. -/
def block_addrs (data_width block_width byte_align : Nat) : Option (List Nat) :=
  (pyRange block_width data_width).mapM
    (fun addr => (utils_align addr byte_align).map (· + BLOCK_ADDR))

/-- `Driver.__init__`: the digest-region address list (same construction
with base `DIGEST_ADDR`). -/
def digest_addrs (data_width digest_width byte_align : Nat) : Option (List Nat) :=
  (pyRange digest_width data_width).mapM
    (fun addr => (utils_align addr byte_align).map (· + DIGEST_ADDR))

/-- `Driver.write_block`: the data chunk written by the transaction at
`self.block_addrs[index]` is `(block >> (self.data_width * index)) & mask`
with `mask = 2**self.data_width - 1`; one chunk per address. -/
def write_block_chunks (data_width nAddrs block : Nat) : List Nat :=
  (List.range nAddrs).map
    (fun index => (block >>> (data_width * index)) &&& (2 ^ data_width - 1))

/-- The loop of `Driver.read_block`, given the chunk returned at each
address: `block |= data << (self.data_width * index)`. -/
def read_block_loop (data_width : Nat) : List Nat → Nat → Nat → Nat
  | [], _, block => block
  | d :: rest, index, block =>
      read_block_loop data_width rest (index + 1) (block ||| (d <<< (data_width * index)))

/-- `Driver.read_block` reassembly starting from `block = 0`, `index = 0`. -/
def read_block (data_width : Nat) (chunks : List Nat) : Nat :=
  read_block_loop data_width chunks 0 0

end Driver

/-- Helper for reasoning about `Driver.read_block`: the value carried by a
chunk list, chunk 0 least significant, each chunk occupying `data_width`
bits. -/
def assembleChunks (data_width : Nat) : List Nat → Nat
  | [] => 0
  | c :: rest => c ||| assembleChunks data_width rest <<< data_width

/-- The expected digest-register read value computed by the
`digest_register` test in `tb/interface/test_simple_interface.py`:
`SHL = 3 if BYTE_ALIGN else 5`, `nbits = (regaddr & 0xFF) << SHL`,
`mask = ((1 << DATA_WIDTH) - 1) << nbits`, `expval = (digest & mask) >> nbits`. -/
def digest_register_expval (digest data_width : Nat) (byte_align : Bool)
    (regaddr : Nat) : Nat :=
  let shl : Nat := if byte_align then 3 else 5
  let nbits := (regaddr &&& 0xFF) <<< shl
  let mask := ((1 <<< data_width) - 1) <<< nbits
  (digest &&& mask) >>> nbits

/-- Modelled from the spec: the RTL register interface
(`hw/interface/simple_reg_interface.sv`) that serves digest reads is not
among the Python testbench sources; per spec §4.3, digest-region reads
"return the live-computed digest slice selected by
`(address & region_offset_mask) << shift`, where shift is 3 for byte
alignment, 5 for word alignment". -/
def digestReadModel (digest data_width : Nat) (byte_align : Bool) (addr : Nat) : Nat :=
  (digest >>> ((addr &&& 0xFF) <<< (if byte_align then 3 else 5))) &&&
    (2 ^ data_width - 1)

/-- The true rotate-right of an in-range `x` on `w`-bit words — the
reference point of claim C8 ("the true 64-bit rotate-right of x by n"). -/
def rotRight (w x n : Nat) : Nat := (x >>> n) ||| ((x % 2 ^ n) <<< (w - n))

namespace sha512

/-- Reference rotate for claim C8: `right_rotate` with the result masked to
64 bits. -/
def right_rotate_masked (x n : Nat) : Nat :=
  ((x >>> n) ||| (x <<< (64 - n))) &&& 0xFFFFFFFFFFFFFFFF

/-- Reference schedule step: `scheduleStep` with every rotation masked. -/
def scheduleStepMasked (w : List Nat) : List Nat :=
  let x15 := w.getD (w.length - 15) 0
  let x2 := w.getD (w.length - 2) 0
  let s0 := right_rotate_masked x15 1 ^^^ right_rotate_masked x15 8 ^^^ (x15 >>> 7)
  let s1 := right_rotate_masked x2 19 ^^^ right_rotate_masked x2 61 ^^^ (x2 >>> 6)
  w ++ [(w.getD (w.length - 16) 0 + s0 + w.getD (w.length - 7) 0 + s1) &&&
    0xFFFFFFFFFFFFFFFF]

/-- Reference message schedule with every rotation masked. -/
def scheduleMasked (block : List Nat) : List Nat :=
  let w16 := (List.range 16).map (fun i => beWord ((block.drop (8 * i)).take 8))
  (List.range 64).foldl (fun w _ => scheduleStepMasked w) w16

/-- Reference round with every rotation masked. -/
def round_step_masked (w : List Nat) (st : State) (i : Nat) : State :=
  let (a, b, c, d, e, f, g, h) := st
  let s1 := right_rotate_masked e 14 ^^^ right_rotate_masked e 18 ^^^
    right_rotate_masked e 41
  let ch := (e &&& f) ^^^ ((e ^^^ 0xFFFFFFFFFFFFFFFF) &&& g)
  let temp1 := (h + s1 + ch + k.getD i 0 + w.getD i 0) &&& 0xFFFFFFFFFFFFFFFF
  let s0 := right_rotate_masked a 28 ^^^ right_rotate_masked a 34 ^^^
    right_rotate_masked a 39
  let maj := (a &&& b) ^^^ (a &&& c) ^^^ (b &&& c)
  let temp2 := (s0 + maj) &&& 0xFFFFFFFFFFFFFFFF
  ((temp1 + temp2) &&& 0xFFFFFFFFFFFFFFFF, a, b, c,
    (d + temp1) &&& 0xFFFFFFFFFFFFFFFF, e, f, g)

/-- Reference `_process_block` with every rotation masked. -/
def process_block_masked (st : State) (block : List Nat) : Option State :=
  if block.length = 128 then
    let w := scheduleMasked block
    let (a, b, c, d, e, f, g, h) := (List.range 80).foldl (round_step_masked w) st
    some ((st.1 + a) &&& 0xFFFFFFFFFFFFFFFF, (st.2.1 + b) &&& 0xFFFFFFFFFFFFFFFF,
      (st.2.2.1 + c) &&& 0xFFFFFFFFFFFFFFFF, (st.2.2.2.1 + d) &&& 0xFFFFFFFFFFFFFFFF,
      (st.2.2.2.2.1 + e) &&& 0xFFFFFFFFFFFFFFFF,
      (st.2.2.2.2.2.1 + f) &&& 0xFFFFFFFFFFFFFFFF,
      (st.2.2.2.2.2.2.1 + g) &&& 0xFFFFFFFFFFFFFFFF,
      (st.2.2.2.2.2.2.2 + h) &&& 0xFFFFFFFFFFFFFFFF)
  else none

end sha512

/-- C1: on a freshly constructed instance, `process("abc")` (bytes
`[0x61, 0x62, 0x63]`) returns the published FIPS test-vector digest for each
hash variant at its default/selected width: SHA-1, SHA-256, and SHA-512 with
`digest_width = 512`. -/
theorem claim_C1_fips_abc_vectors :
    (sha1.process sha1.init_h [0x61, 0x62, 0x63]).map Prod.snd =
      some "a9993e364706816aba3e25717850c26c9cd0d89d" ∧
    (sha256.process sha256.init_h [0x61, 0x62, 0x63]).map Prod.snd =
      some "ba7816bf8f01cfea414140de5dae2223b00361a396177a9cb410ff61f20015ad" ∧
    ((sha512.mk 512).bind fun inst =>
      (sha512.process inst [0x61, 0x62, 0x63]).map Prod.snd) =
      some "ddaf35a193617abacc417349ae20413112e6fa4e89a97ea20a9eeee64b55d39a2192992a274fc1a836ba3c23a3feebbd454d4423643ce80e2a9ac94fa54ca49f" :=
  ⟨by rfl, by rfl, by rfl⟩

/-- C9: a `sha1` instance is single-use — `process` mutates `self._h` in
place and never re-initializes it, so processing `"abc"` a second time on
the same instance yields a digest different from the first call's digest
(which is also the digest a fresh instance produces for `"abc"`). -/
theorem claim_C9_single_use :
    ((sha1.process sha1.init_h [0x61, 0x62, 0x63]).bind fun r =>
      (sha1.process r.1 [0x61, 0x62, 0x63]).map Prod.snd) =
      some "43d6155c8ef837491625bbf8e443c57e3c793422" ∧
    (sha1.process sha1.init_h [0x61, 0x62, 0x63]).map Prod.snd =
      some "a9993e364706816aba3e25717850c26c9cd0d89d" ∧
    "43d6155c8ef837491625bbf8e443c57e3c793422" ≠
      "a9993e364706816aba3e25717850c26c9cd0d89d" :=
  ⟨by rfl, by rfl, by decide⟩

/-- The last `b.length` entries of `a ++ b` are `b`. -/
theorem lastN_append (a b : List Nat) : lastN b.length (a ++ b) = b := by
  unfold lastN
  have h : (a ++ b).length - b.length = a.length := by simp
  rw [h]
  exact List.drop_left a b

/-- C2 (failing input): for a message of `2^29` bytes (bit length `2^32`),
the final 16 bytes of `sha512._pre_processing` decode (as a big-endian
128-bit integer) to `0`, not to the original bit length `2^32`: the source's
length field is `struct.pack(">QQ", ml & (0xFFFF_FFFF < 32), ml & 0xFFFF_FFFF)`,
which encodes `ml mod 2^32` because `0xFFFF_FFFF < 32` is a boolean. -/
theorem claim_C2_length_field_bug :
    8 * (List.replicate (2 ^ 29) (0 : Nat)).length = 2 ^ 32 ∧
    (sha512.pre_processing (List.replicate (2 ^ 29) 0)).map
      (fun p => beWord (lastN 16 p)) = some 0 ∧
    (0 : Nat) ≠ 2 ^ 32 := by
  refine ⟨by rw [List.length_replicate]; norm_num, ?_, by decide⟩
  have hhi : (2 ^ 29 * 8 : Nat) &&& (if (0xFFFFFFFF : Nat) < 32 then 1 else 0) = 0 := by
    decide
  have hlo : (2 ^ 29 * 8 : Nat) &&& 0xFFFFFFFF = 0 := by decide
  have hsplit : sha512.pre_processing (List.replicate (2 ^ 29) 0) =
      some (sha512.padZeros (List.replicate (2 ^ 29) 0 ++ [0x80]) ++
        beBytes 8 0 ++ beBytes 8 0) := by
    unfold sha512.pre_processing
    simp only [List.length_replicate, hhi, hlo]
    rfl
  rw [hsplit]
  rw [List.append_assoc (sha512.padZeros (List.replicate (2 ^ 29) 0 ++ [0x80]))]
  show some (beWord (lastN 16 (sha512.padZeros (List.replicate (2 ^ 29) 0 ++ [0x80]) ++
    (beBytes 8 0 ++ beBytes 8 0)))) = some 0
  have h16 : (beBytes 8 (0 : Nat) ++ beBytes 8 0).length = 16 := by rfl
  rw [← h16, lastN_append]
  rfl

/-- `sha1.padZeros` (and the identical `sha256.padZeros`) is the fixpoint of
the source's while loop: it returns `m` when `(len(m) + 8) % 64 == 0` and
otherwise recurses on `m ++ [0]`. -/
theorem sha1_padZeros_loop (m : List Nat) :
    sha1.padZeros m = if (m.length + 8) % 64 = 0 then m else sha1.padZeros (m ++ [0]) := by
  unfold sha1.padZeros
  split
  · simp [*]
  · have h : (64 - (m.length + 8) % 64) % 64 =
        ((64 - ((m ++ [0]).length + 8) % 64) % 64) + 1 := by
      simp; omega
    rw [h, List.replicate_succ, List.append_assoc]
    rfl

/-- `sha512.padZeros` is the fixpoint of the source's while loop with a
16-byte length field and 128-byte blocks. -/
theorem sha512_padZeros_loop (m : List Nat) :
    sha512.padZeros m =
      if (m.length + 16) % 128 = 0 then m else sha512.padZeros (m ++ [0]) := by
  unfold sha512.padZeros
  split
  · simp [*]
  · have h : (128 - (m.length + 16) % 128) % 128 =
        ((128 - ((m ++ [0]).length + 16) % 128) % 128) + 1 := by
      simp; omega
    rw [h, List.replicate_succ, List.append_assoc]
    rfl

/-- The truthiness test `if strobe & (1 << b)` of the Python source agrees
with `Nat.testBit`. -/
theorem strobe_pick_eq (s b x y : Nat) :
    (if s &&& (1 <<< b) ≠ 0 then x else y) = (if s.testBit b then x else y) := by
  rw [Nat.one_shiftLeft, Nat.and_two_pow]
  cases h : s.testBit b
  · simp [h]
  · simp [h, (Nat.two_pow_pos b).ne']

/-- Bit-level characterization of the `sim_strobe_write` loop: bit `j` of
the accumulated value is bit `j` of the value selected by strobe bit
`j / 8`, for `j` inside the accumulated lanes, and `0` beyond them. -/
theorem simStrobeLoop_testBit (p w s : Nat) (n j : Nat) :
    (simStrobeLoop p w s n).testBit j =
      if j < 8 * n then (if s &&& (1 <<< (j / 8)) ≠ 0 then w else p).testBit j
      else false := by
  induction n with
  | zero => simp [simStrobeLoop]
  | succ n ih =>
    have hff : (0xFF : Nat) = 2 ^ 8 - 1 := by norm_num
    rw [simStrobeLoop, Nat.testBit_or, ih, hff]
    simp only [Nat.testBit_and, Nat.testBit_shiftLeft, Nat.testBit_two_pow_sub_one]
    by_cases h1 : j < 8 * n
    · have h2 : j < 8 * (n + 1) := by omega
      simp [h1, h2, show ¬(j ≥ n * 8) by omega]
    · by_cases h2 : j < 8 * (n + 1)
      · have hge : j ≥ n * 8 := by omega
        have hlt8 : j - n * 8 < 8 := by omega
        have hdiv : j / 8 = n := by omega
        simp [h1, h2, hge, hlt8, hdiv]
      · simp [h1, h2, show ¬(j - n * 8 < 8) by omega]

/-- Byte lane `b` of `sim_strobe_write` is byte lane `b` of the value
selected by strobe bit `b` (no width preconditions needed). -/
theorem sim_strobe_write_byte (prev nw s databytes b : Nat) (hb : b < databytes) :
    (sim_strobe_write prev nw s databytes >>> (8 * b)) &&& 0xFF =
      ((if s.testBit b then nw else prev) >>> (8 * b)) &&& 0xFF := by
  apply Nat.eq_of_testBit_eq
  intro j
  simp only [Nat.testBit_and, Nat.testBit_shiftRight]
  by_cases hj : j < 8
  · have h1 : 8 * b + j < 8 * databytes := by omega
    have h2 : (8 * b + j) / 8 = b := by omega
    rw [sim_strobe_write, simStrobeLoop_testBit, if_pos h1, h2, strobe_pick_eq]
  · have h255 : Nat.testBit 0xFF j = false := by
      apply Nat.testBit_lt_two_pow
      calc (0xFF : Nat) < 2 ^ 8 := by norm_num
        _ ≤ 2 ^ j := Nat.pow_le_pow_right (by norm_num) (by omega)
    simp [h255]

/-- C3: for every `databytes ∈ {1, 2, 4, 8}`, strobe `s < 2^databytes`, and
values `prev, new < 2^(8*databytes)`, byte lane `b < databytes` of
`sim_strobe_write(prev, new, s, databytes)` equals byte `b` of `new` when
bit `b` of `s` is set and byte `b` of `prev` when it is clear. -/
theorem claim_C3_strobe_byte_lanes (databytes : Nat)
    (hdb : databytes = 1 ∨ databytes = 2 ∨ databytes = 4 ∨ databytes = 8)
    (s prev nw : Nat) (hs : s < 2 ^ databytes)
    (hp : prev < 2 ^ (8 * databytes)) (hn : nw < 2 ^ (8 * databytes))
    (b : Nat) (hb : b < databytes) :
    (sim_strobe_write prev nw s databytes >>> (8 * b)) &&& 0xFF =
      if s.testBit b then (nw >>> (8 * b)) &&& 0xFF
      else (prev >>> (8 * b)) &&& 0xFF := by
  rw [sim_strobe_write_byte prev nw s databytes b hb]
  by_cases h : s.testBit b <;> simp [h]

/-- Witness for C3 at `databytes = 4`, `s = 0b0101`, concrete values. -/
theorem claim_C3_witness :
    (sim_strobe_write 0x11223344 0xAABBCCDD 5 4 >>> (8 * 1)) &&& 0xFF =
      if (5 : Nat).testBit 1 then (0xAABBCCDD >>> (8 * 1)) &&& 0xFF
      else (0x11223344 >>> (8 * 1)) &&& 0xFF :=
  claim_C3_strobe_byte_lanes 4 (by decide) 5 0x11223344 0xAABBCCDD
    (by decide) (by decide) (by decide) 1 (by decide)

/-- The `sim_strobe_write` accumulator stays below `2^(8*n)`. -/
theorem simStrobeLoop_lt (p w s : Nat) (n : Nat) :
    simStrobeLoop p w s n < 2 ^ (8 * n) := by
  induction n with
  | zero => simp [simStrobeLoop]
  | succ n ih =>
    have hmask : (0xFF : Nat) <<< (n * 8) < 2 ^ (8 * (n + 1)) := by
      have h8 : 8 * (n + 1) = n * 8 + 8 := by ring
      rw [Nat.shiftLeft_eq, h8, pow_add, Nat.mul_comm (2 ^ (n * 8)) (2 ^ 8)]
      exact Nat.mul_lt_mul_of_lt_of_le (by norm_num) (Nat.le_refl _) (Nat.two_pow_pos _)
    have hle : (2 : Nat) ^ (8 * n) ≤ 2 ^ (8 * (n + 1)) :=
      Nat.pow_le_pow_right (by norm_num) (by omega)
    exact Nat.or_lt_two_pow (Nat.lt_of_lt_of_le ih hle)
      (Nat.and_lt_two_pow _ hmask)

/-- C10: for every `databytes ≥ 1` and arbitrary (possibly oversized)
`prevval`, `wrval`, `strobe`, the result of `sim_strobe_write` is strictly
below `2^(8*databytes)` and depends only on the low `databytes` bytes of
`prevval`/`wrval` and the low `databytes` bits of `strobe`. -/
theorem claim_C10_strobe_truncation (databytes : Nat) (hdb : 1 ≤ databytes)
    (prev nw s : Nat) :
    sim_strobe_write prev nw s databytes < 2 ^ (8 * databytes) ∧
    sim_strobe_write prev nw s databytes =
      sim_strobe_write (prev % 2 ^ (8 * databytes)) (nw % 2 ^ (8 * databytes))
        (s % 2 ^ databytes) databytes := by
  constructor
  · exact simStrobeLoop_lt prev nw s databytes
  · apply Nat.eq_of_testBit_eq
    intro j
    rw [sim_strobe_write, sim_strobe_write, simStrobeLoop_testBit, simStrobeLoop_testBit]
    by_cases hj : j < 8 * databytes
    · have hdiv : j / 8 < databytes := by omega
      rw [if_pos hj, if_pos hj, strobe_pick_eq, strobe_pick_eq]
      simp only [apply_ite (fun x => Nat.testBit x j), Nat.testBit_mod_two_pow]
      simp [hdiv, hj]
    · rw [if_neg hj, if_neg hj]

/-- Witness for C10 at `databytes = 2` with oversized inputs. -/
theorem claim_C10_witness :
    sim_strobe_write 0x123456 0xABCDEF 7 2 < 2 ^ (8 * 2) ∧
    sim_strobe_write 0x123456 0xABCDEF 7 2 =
      sim_strobe_write (0x123456 % 2 ^ (8 * 2)) (0xABCDEF % 2 ^ (8 * 2))
        (7 % 2 ^ 2) 2 :=
  claim_C10_strobe_truncation 2 (by decide) 0x123456 0xABCDEF 7

/-- Shifting left distributes over bitwise or. -/
theorem or_shiftLeft (a b n : Nat) : (a ||| b) <<< n = (a <<< n) ||| (b <<< n) := by
  apply Nat.eq_of_testBit_eq
  intro j
  simp only [Nat.testBit_shiftLeft, Nat.testBit_or]
  by_cases h : j ≥ n <;> simp [h, Bool.and_or_distrib_left]

/-- Closed form of the `Driver.read_block` loop. -/
theorem read_block_loop_eq (dw : Nat) (chunks : List Nat) : ∀ idx acc : Nat,
    Driver.read_block_loop dw chunks idx acc =
      acc ||| assembleChunks dw chunks <<< (dw * idx) := by
  induction chunks with
  | nil => intro idx acc; simp [Driver.read_block_loop, assembleChunks]
  | cons c rest ih =>
    intro idx acc
    rw [Driver.read_block_loop, ih, assembleChunks]
    rw [or_shiftLeft, ← Nat.shiftLeft_add, Nat.mul_succ, Nat.or_assoc,
      Nat.add_comm dw (dw * idx)]

/-- `Driver.read_block` computes the chunk-list value. -/
theorem read_block_eq_assemble (dw : Nat) (chunks : List Nat) :
    Driver.read_block dw chunks = assembleChunks dw chunks := by
  rw [Driver.read_block, read_block_loop_eq]
  simp

/-- Peeling the least-significant chunk off `Driver.write_block_chunks`. -/
theorem write_block_chunks_succ (dw n block : Nat) :
    Driver.write_block_chunks dw (n + 1) block =
      (block &&& (2 ^ dw - 1)) :: Driver.write_block_chunks dw n (block >>> dw) := by
  unfold Driver.write_block_chunks
  rw [List.range_succ_eq_map]
  simp only [List.map_cons, List.map_map, Nat.mul_zero, Nat.shiftRight_zero]
  congr 1
  apply List.map_congr_left
  intro i _
  show (block >>> (dw * (i + 1))) &&& (2 ^ dw - 1) =
    ((block >>> dw) >>> (dw * i)) &&& (2 ^ dw - 1)
  rw [← Nat.shiftRight_add, Nat.mul_succ, Nat.add_comm (dw * i) dw]

/-- The chunks of `Driver.write_block` reassemble to `block mod 2^(dw*n)`. -/
theorem assemble_write_chunks (dw : Nat) : ∀ n block : Nat,
    assembleChunks dw (Driver.write_block_chunks dw n block) = block % 2 ^ (dw * n) := by
  intro n
  induction n with
  | zero =>
    intro block
    simp [Driver.write_block_chunks, assembleChunks, Nat.mod_one]
  | succ n ih =>
    intro block
    rw [write_block_chunks_succ, assembleChunks, ih]
    apply Nat.eq_of_testBit_eq
    intro j
    simp only [Nat.testBit_or, Nat.testBit_and, Nat.testBit_shiftLeft,
      Nat.testBit_mod_two_pow, Nat.testBit_shiftRight, Nat.testBit_two_pow_sub_one]
    by_cases h1 : j < dw
    · have h2 : ¬(j ≥ dw) := by omega
      have h3 : j < dw * (n + 1) := by
        calc j < dw := h1
          _ ≤ dw * (n + 1) := Nat.le_mul_of_pos_right dw (Nat.succ_pos n)
      simp [h1, h2, h3]
    · have h2 : j ≥ dw := by omega
      by_cases h3 : j - dw < dw * n
      · have h4 : j < dw * (n + 1) := by
          have hmul : dw * (n + 1) = dw * n + dw := by ring
          omega
        have h5 : dw + (j - dw) = j := by omega
        simp [h1, h2, h3, h4, h5]
      · have h4 : ¬(j < dw * (n + 1)) := by
          have hmul : dw * (n + 1) = dw * n + dw := by ring
          omega
        simp [h1, h2, h3, h4]

/-- For `dw > 0`, `dw * ceil(bw / dw) ≥ bw` (the chunk count used by the
driver covers the whole block field). -/
theorem le_mul_ceilDiv (bw dw : Nat) (hdw : 0 < dw) :
    bw ≤ dw * ((bw + dw - 1) / dw) := by
  rcases Nat.eq_zero_or_pos bw with h | h
  · simp [h]
  · have h1 : bw + dw - 1 = (bw - 1) + dw := by omega
    rw [h1, Nat.add_div_right _ hdw]
    have h2 := Nat.div_add_mod (bw - 1) dw
    have h3 : (bw - 1) % dw < dw := Nat.mod_lt _ hdw
    have h4 : dw * ((bw - 1) / dw + 1) = dw * ((bw - 1) / dw) + dw := by ring
    omega

/-- C6: for every positive data width and every `block < 2^block_width`,
splitting the block into one data-width-sized chunk per block-register
address (as `Driver.write_block` does) and reassembling the chunks in
increasing address order (as `Driver.read_block` does) reproduces the
original block bit-for-bit. -/
theorem claim_C6_block_round_trip (data_width block_width block : Nat)
    (hdw : 0 < data_width) (hb : block < 2 ^ block_width) :
    Driver.read_block data_width
      (Driver.write_block_chunks data_width
        (pyRange block_width data_width).length block) = block := by
  rw [read_block_eq_assemble, assemble_write_chunks]
  apply Nat.mod_eq_of_lt
  apply Nat.lt_of_lt_of_le hb
  apply Nat.pow_le_pow_right (by norm_num)
  have hlen : (pyRange block_width data_width).length =
      (block_width + data_width - 1) / data_width := by
    simp [pyRange]
  rw [hlen]
  exact le_mul_ceilDiv block_width data_width hdw

/-- Witness for C6 at `data_width = 32`, `block_width = 512`. -/
theorem claim_C6_witness :
    Driver.read_block 32
      (Driver.write_block_chunks 32 (pyRange 512 32).length 0xDEADBEEFCAFEBABE) =
      0xDEADBEEFCAFEBABE :=
  claim_C6_block_round_trip 32 512 0xDEADBEEFCAFEBABE (by decide) (by norm_num)

/-- Masking with a shifted mask and then shifting down equals shifting down
and masking. -/
theorem and_shiftLeft_shiftRight (x m n : Nat) :
    (x &&& (m <<< n)) >>> n = (x >>> n) &&& m := by
  apply Nat.eq_of_testBit_eq
  intro j
  simp only [Nat.testBit_shiftRight, Nat.testBit_and, Nat.testBit_shiftLeft]
  have h1 : n + j ≥ n := Nat.le_add_right n j
  have h2 : n + j - n = j := by omega
  simp [h1, h2]

/-- C5: for every digest value, data width, alignment and address in the
digest address set, the digest value read back (modelled from the spec as
the live-computed slice) equals the oracle value the `digest_register` test
computes: the `data_width`-bit slice of the digest at bit offset
`(addr & 0xFF) << shift` with shift 3 (byte-aligned) or 5 (word-aligned). -/
theorem claim_C5_digest_read_slice (digest data_width digest_width : Nat)
    (ba : Bool) (a : Nat)
    (ha : a ∈ tbRegionAddrs DIGEST_ADDR digest_width data_width ba) :
    digestReadModel digest data_width ba a =
      digest_register_expval digest data_width ba a := by
  unfold digestReadModel digest_register_expval
  rw [Nat.one_shiftLeft, and_shiftLeft_shiftRight]

/-- Witness for C5 at a concrete digest-region address (`0x204`, the second
32-bit register of a 256-bit digest, byte-aligned). -/
theorem claim_C5_witness :
    (0x204 : Nat) ∈ tbRegionAddrs DIGEST_ADDR 256 32 true ∧
    digestReadModel 0x0123456789ABCDEF0123456789ABCDEF 32 true 0x204 =
      digest_register_expval 0x0123456789ABCDEF0123456789ABCDEF 32 true 0x204 :=
  ⟨by decide, claim_C5_digest_read_slice 0x0123456789ABCDEF0123456789ABCDEF
    32 256 true 0x204 (by decide)⟩

/-- C4 (counterexample facts): the driver's address computation does not
match the claimed `base + floor(i*data_width/step)` formula.  With
`byte_align = 1` (the value the testbenches pass), `data_width = 32`,
`block_width = 512`, the second block address is `0x120`, not the claimed
`0x104` (which the testbench-side `align` with step 8 produces); with
`byte_align = 0` (word alignment) the construction divides by zero; and for
`data_width = 8`, `block_width = 1024`, `digest_width = 256` the block and
digest address sets overlap at `0x200`. -/
theorem claim_C4_driver_align_bug :
    (Driver.block_addrs 32 512 1).map (fun l => l.getD 1 0) = some 0x120 ∧
    (tbRegionAddrs BLOCK_ADDR 512 32 true).getD 1 0 = 0x104 ∧
    (0x120 : Nat) ≠ 0x104 ∧
    Driver.block_addrs 32 512 0 = none ∧
    (Driver.block_addrs 8 1024 1).map (fun l => decide (0x200 ∈ l)) = some true ∧
    (Driver.digest_addrs 8 256 1).map (fun l => decide (0x200 ∈ l)) = some true :=
  ⟨by rfl, by rfl, by decide, by rfl, by rfl, by rfl⟩

/-- `beBytes` always produces exactly `k` bytes. -/
theorem beBytes_length (k : Nat) : ∀ n, (beBytes k n).length = k := by
  induction k with
  | zero => intro n; rfl
  | succ k ih => intro n; simp [beBytes, ih]

/-- The sha512 zero-padding stops exactly 16 bytes short of a multiple of
128. -/
theorem sha512_padZeros_length (m : List Nat) :
    ((sha512.padZeros m).length + 16) % 128 = 0 := by
  simp [sha512.padZeros]
  omega

/-- `sha512._pre_processing` never raises (both `struct.pack` arguments fit
in 64 bits) and returns a whole number of 128-byte blocks. -/
theorem sha512_pre_processing_total (msg : List Nat) :
    ∃ pre, sha512.pre_processing msg = some pre ∧ pre.length % 128 = 0 := by
  have h0 : (if (0xFFFFFFFF : Nat) < 32 then (1 : Nat) else 0) = 0 := by norm_num
  have hlo : msg.length * 8 &&& 0xFFFFFFFF < 2 ^ 64 :=
    Nat.lt_of_le_of_lt Nat.and_le_right (by norm_num)
  unfold sha512.pre_processing
  simp only [h0, Nat.and_zero, pack64, if_pos (by norm_num : (0 : Nat) < 2 ^ 64),
    if_pos hlo, Option.some_bind]
  refine ⟨_, rfl, ?_⟩
  simp only [List.length_append, beBytes_length]
  have := sha512_padZeros_length (msg ++ [0x80])
  omega

/-- `sha512._process_block` succeeds on every 128-byte block. -/
theorem sha512_process_block_isSome (st : sha512.State) (b : List Nat)
    (hb : b.length = 128) : (sha512.process_block st b).isSome = true := by
  rw [sha512.process_block, if_pos hb]
  dsimp only
  rfl

/-- The sha512 block loop succeeds when every block is 128 bytes. -/
theorem sha512_processBlocksLoop_isSome :
    ∀ (blocks : List (List Nat)) (st : sha512.State),
      (∀ b ∈ blocks, b.length = 128) →
      (sha512.processBlocksLoop st blocks).isSome = true := by
  intro blocks
  induction blocks with
  | nil => intro st _; rfl
  | cons b bs ih =>
    intro st h
    obtain ⟨st', hst'⟩ := Option.isSome_iff_exists.mp
      (sha512_process_block_isSome st b (h b (List.mem_cons_self b bs)))
    rw [sha512.processBlocksLoop, hst', Option.some_bind]
    exact ih st' (fun x hx => h x (List.mem_cons_of_mem b hx))

/-- `sha512.process` never raises, whatever the instance state. -/
theorem sha512_process_isSome (inst : sha512.Inst) (msg : List Nat) :
    (sha512.process inst msg).isSome = true := by
  obtain ⟨pre, hpre, hmod⟩ := sha512_pre_processing_total msg
  rw [sha512.process, hpre, Option.some_bind]
  have hblocks : ∀ b ∈ (pyRange pre.length 128).map (fun m => (pre.drop m).take 128),
      b.length = 128 := by
    intro b hb
    simp only [pyRange, List.mem_map, List.mem_range] at hb
    obtain ⟨m, ⟨i, hi, rfl⟩, rfl⟩ := hb
    simp only [List.length_take, List.length_drop]
    rw [Nat.min_eq_left (by omega)]
  obtain ⟨st', hst'⟩ := Option.isSome_iff_exists.mp
    (sha512_processBlocksLoop_isSome _ inst.h hblocks)
  rw [hst', Option.some_bind]
  rfl

/-- C7: constructing a `sha512` engine succeeds exactly for digest widths
224, 256, 384, 512 (any other width fails the construction-time assertion),
and `process` on a successfully constructed instance raises no exception
for any finite input message. -/
theorem claim_C7_construction_and_no_exceptions (w : Nat) :
    ((sha512.mk w).isSome = true ↔ (w = 224 ∨ w = 256 ∨ w = 384 ∨ w = 512)) ∧
    (∀ (inst : sha512.Inst) (msg : List Nat), sha512.mk w = some inst →
      (sha512.process inst msg).isSome = true) := by
  constructor
  · unfold sha512.mk
    split_ifs <;> simp_all
  · intro inst msg _
    exact sha512_process_isSome inst msg

/-- Witness for C7: width 512 constructs and processing `"abc"` succeeds. -/
theorem claim_C7_witness :
    (sha512.process ⟨sha512.sha512_h, 512⟩ [0x61, 0x62, 0x63]).isSome = true :=
  (claim_C7_construction_and_no_exceptions 512).2 ⟨sha512.sha512_h, 512⟩
    [0x61, 0x62, 0x63] (by rfl)

/-- Reducing modulo `2^k` distributes over bitwise or. -/
theorem or_mod_two_pow (a b k : Nat) :
    (a ||| b) % 2 ^ k = a % 2 ^ k ||| b % 2 ^ k := by
  apply Nat.eq_of_testBit_eq
  intro j
  simp only [Nat.testBit_mod_two_pow, Nat.testBit_or]
  by_cases h : j < k <;> simp [h]

/-- Reducing modulo `2^k` distributes over bitwise xor. -/
theorem xor_mod_two_pow (a b k : Nat) :
    (a ^^^ b) % 2 ^ k = (a % 2 ^ k) ^^^ (b % 2 ^ k) := by
  apply Nat.eq_of_testBit_eq
  intro j
  simp only [Nat.testBit_mod_two_pow, Nat.testBit_xor]
  by_cases h : j < k <;> simp [h]

/-- Shifting into the masked range commutes with the mask. -/
theorem shiftLeft_mod_two_pow (y s k : Nat) (hs : s ≤ k) :
    (y <<< s) % 2 ^ k = (y % 2 ^ (k - s)) <<< s := by
  apply Nat.eq_of_testBit_eq
  intro j
  simp only [Nat.testBit_mod_two_pow, Nat.testBit_shiftLeft]
  by_cases h1 : s ≤ j
  · by_cases h2 : j < k
    · simp [h1, h2, show j - s < k - s by omega]
    · simp [h1, h2, show ¬(j - s < k - s) by omega]
  · simp [show ¬(j ≥ s) from h1]

/-- The unmasked Python rotate is congruent, modulo `2^w`, to the true
`w`-bit rotate of an in-range operand. -/
theorem unmasked_rot_mod (w x n : Nat) (hx : x < 2 ^ w) (hnw : n < w) :
    ((x >>> n) ||| (x <<< (w - n))) % 2 ^ w = rotRight w x n := by
  unfold rotRight
  rw [or_mod_two_pow]
  have h1 : x >>> n < 2 ^ w := by
    rw [Nat.shiftRight_eq_div_pow]
    exact Nat.lt_of_le_of_lt (Nat.div_le_self x _) hx
  rw [Nat.mod_eq_of_lt h1, shiftLeft_mod_two_pow _ _ _ (by omega),
    show w - (w - n) = n by omega]

/-- Masking with `0xFFFFFFFFFFFFFFFF` is reduction modulo `2^64`. -/
theorem mask64_eq_mod (x : Nat) : x &&& 0xFFFFFFFFFFFFFFFF = x % 2 ^ 64 := by
  have h : (0xFFFFFFFFFFFFFFFF : Nat) = 2 ^ 64 - 1 := by norm_num
  rw [h, Nat.and_pow_two_sub_one_eq_mod]

/-- The unmasked and masked sha512 rotates agree modulo `2^64`. -/
theorem sha512_rr_mod (x n : Nat) :
    sha512.right_rotate x n % 2 ^ 64 = sha512.right_rotate_masked x n % 2 ^ 64 := by
  unfold sha512.right_rotate sha512.right_rotate_masked
  rw [mask64_eq_mod, Nat.mod_mod_of_dvd _ (dvd_refl _)]

/-- Congruence modulo `2^64` through a three-way xor. -/
theorem mod64_xor3 (a b c a' b' c' : Nat)
    (ha : a % 2 ^ 64 = a' % 2 ^ 64) (hb : b % 2 ^ 64 = b' % 2 ^ 64)
    (hc : c % 2 ^ 64 = c' % 2 ^ 64) :
    (a ^^^ b ^^^ c) % 2 ^ 64 = (a' ^^^ b' ^^^ c') % 2 ^ 64 := by
  rw [xor_mod_two_pow, xor_mod_two_pow a b, ha, hb, hc, ← xor_mod_two_pow a' b',
    ← xor_mod_two_pow]

/-- Congruence through the four-term schedule sum. -/
theorem mod64_add4 (p q a b a' b' : Nat)
    (ha : a % 2 ^ 64 = a' % 2 ^ 64) (hb : b % 2 ^ 64 = b' % 2 ^ 64) :
    (p + a + q + b) % 2 ^ 64 = (p + a' + q + b') % 2 ^ 64 := by
  have ha' : a ≡ a' [MOD 2 ^ 64] := ha
  have hb' : b ≡ b' [MOD 2 ^ 64] := hb
  exact (((Nat.ModEq.refl p).add ha').add (Nat.ModEq.refl q)).add hb'

/-- Congruence through the five-term `temp1` sum. -/
theorem mod64_add5 (p q r t a a' : Nat) (ha : a % 2 ^ 64 = a' % 2 ^ 64) :
    (p + a + q + r + t) % 2 ^ 64 = (p + a' + q + r + t) % 2 ^ 64 := by
  have ha' : a ≡ a' [MOD 2 ^ 64] := ha
  exact ((((Nat.ModEq.refl p).add ha').add (Nat.ModEq.refl q)).add
    (Nat.ModEq.refl r)).add (Nat.ModEq.refl t)

/-- Congruence through the two-term `temp2` sum. -/
theorem mod64_add2 (q a a' : Nat) (ha : a % 2 ^ 64 = a' % 2 ^ 64) :
    (a + q) % 2 ^ 64 = (a' + q) % 2 ^ 64 := by
  have ha' : a ≡ a' [MOD 2 ^ 64] := ha
  exact ha'.add (Nat.ModEq.refl q)

/-- Values congruent modulo `2^64` are equal after the 64-bit mask. -/
theorem mask64_congr (a b : Nat) (h : a % 2 ^ 64 = b % 2 ^ 64) :
    a &&& 0xFFFFFFFFFFFFFFFF = b &&& 0xFFFFFFFFFFFFFFFF := by
  rw [mask64_eq_mod, mask64_eq_mod]
  exact h

/-- One sha512 schedule step computes the same word with unmasked or masked
rotations (the mask on the stored word washes out the high garbage). -/
theorem sha512_scheduleStep_masked (w : List Nat) :
    sha512.scheduleStep w = sha512.scheduleStepMasked w := by
  unfold sha512.scheduleStep sha512.scheduleStepMasked
  dsimp only
  congr 2
  apply mask64_congr
  apply mod64_add4
  · exact mod64_xor3 _ _ _ _ _ _ (sha512_rr_mod _ 1) (sha512_rr_mod _ 8) rfl
  · exact mod64_xor3 _ _ _ _ _ _ (sha512_rr_mod _ 19) (sha512_rr_mod _ 61) rfl

/-- The sha512 message schedule is identical with unmasked or masked
rotations. -/
theorem sha512_schedule_masked (block : List Nat) :
    sha512.schedule block = sha512.scheduleMasked block := by
  unfold sha512.schedule sha512.scheduleMasked
  rw [funext sha512_scheduleStep_masked]

/-- One sha512 round computes the same state with unmasked or masked
rotations. -/
theorem sha512_round_step_masked (w : List Nat) (st : sha512.State) (i : Nat) :
    sha512.round_step w st i = sha512.round_step_masked w st i := by
  obtain ⟨a, b, c, d, e, f, g, h⟩ := st
  unfold sha512.round_step sha512.round_step_masked
  dsimp only
  have hs1 : (sha512.right_rotate e 14 ^^^ sha512.right_rotate e 18 ^^^
      sha512.right_rotate e 41) % 2 ^ 64 =
      (sha512.right_rotate_masked e 14 ^^^ sha512.right_rotate_masked e 18 ^^^
      sha512.right_rotate_masked e 41) % 2 ^ 64 :=
    mod64_xor3 _ _ _ _ _ _ (sha512_rr_mod e 14) (sha512_rr_mod e 18)
      (sha512_rr_mod e 41)
  have hs0 : (sha512.right_rotate a 28 ^^^ sha512.right_rotate a 34 ^^^
      sha512.right_rotate a 39) % 2 ^ 64 =
      (sha512.right_rotate_masked a 28 ^^^ sha512.right_rotate_masked a 34 ^^^
      sha512.right_rotate_masked a 39) % 2 ^ 64 :=
    mod64_xor3 _ _ _ _ _ _ (sha512_rr_mod a 28) (sha512_rr_mod a 34)
      (sha512_rr_mod a 39)
  have ht1 := mask64_congr _ _ (mod64_add5 h ((e &&& f) ^^^ ((e ^^^ 0xFFFFFFFFFFFFFFFF) &&& g))
    (sha512.k.getD i 0) (w.getD i 0) _ _ hs1)
  have ht2 := mask64_congr _ _ (mod64_add2 ((a &&& b) ^^^ (a &&& c) ^^^ (b &&& c)) _ _ hs0)
  rw [ht1, ht2]

/-- `sha512._process_block` computes the same hash state as the reference
that masks every rotation to 64 bits. -/
theorem sha512_process_block_masked_eq (st : sha512.State) (block : List Nat) :
    sha512.process_block st block = sha512.process_block_masked st block := by
  unfold sha512.process_block sha512.process_block_masked
  rw [sha512_schedule_masked,
    funext (fun w => funext (fun s => funext (fun i => sha512_round_step_masked w s i)))]

/-- C8: the unmasked `right_rotate` of sha512 (and sha256) is congruent
modulo the word size to the true rotate of an in-range operand, and
consequently `sha512._process_block` — whose stores are masked — computes
exactly the same message schedule and hash state as a reference that masks
every rotation. -/
theorem claim_C8_rotate_refinement :
    (∀ x n, x < 2 ^ 64 → 0 < n → n < 64 →
      sha512.right_rotate x n % 2 ^ 64 = rotRight 64 x n) ∧
    (∀ block, sha512.schedule block = sha512.scheduleMasked block) ∧
    (∀ st block, sha512.process_block st block = sha512.process_block_masked st block) ∧
    (∀ x n, x < 2 ^ 32 → 0 < n → n < 32 →
      sha256.right_rotate x n % 2 ^ 32 = rotRight 32 x n) := by
  refine ⟨?_, sha512_schedule_masked, sha512_process_block_masked_eq, ?_⟩
  · intro x n hx _ hn
    unfold sha512.right_rotate
    exact unmasked_rot_mod 64 x n hx hn
  · intro x n hx _ hn
    unfold sha256.right_rotate
    exact unmasked_rot_mod 32 x n hx hn

/-- Witness for C8 at concrete in-range rotations. -/
theorem claim_C8_witness :
    sha512.right_rotate 0x123456789ABCDEF0 8 % 2 ^ 64 =
      rotRight 64 0x123456789ABCDEF0 8 ∧
    sha256.right_rotate 0x12345678 8 % 2 ^ 32 = rotRight 32 0x12345678 8 :=
  ⟨claim_C8_rotate_refinement.1 0x123456789ABCDEF0 8 (by decide) (by decide)
      (by decide),
    claim_C8_rotate_refinement.2.2.2 0x12345678 8 (by decide) (by decide)
      (by decide)⟩
